import Mathlib

/-!
Verification development for the KiatsuNotification pressure-notification
Lambda (`lambda_function.py`).  The Python core is shallowly embedded:

* pressures / temperatures (Python floats) are modelled as rationals `ℚ`;
* a forecast entry (`item` of `forecast_data['list']`) becomes `Sample`,
  where `pressure = none` models a dict whose `main`/`pressure` path is
  absent, and `weather` is the list of description strings
  (`item['weather'][i]['description']`);
* a whole payload argument is `Option (Option (List Sample))`:
  `none` models a falsy/absent payload, `some none` a dict without the
  `'list'` key, `some (some l)` a dict whose `'list'` key holds `l`;
* a Python function that may raise an uncaught exception is embedded with
  result type `Option _`, where `none` models the raised exception;
* module-level configuration read from the environment
  (`PRESSURE_THRESHOLD`, `PRESSURE_CHANGE_THRESHOLD`,
  `PRESSURE_ALERT_THRESHOLD`, `USE_GROQ`, `GROQ_API_KEY`) is passed
  explicitly as a `Config` value;
* the single outbound Groq call is replaced by its observable outcome
  `groqResp : Option String` (`some a` = HTTP 200 whose body parsed to the
  advice text `a`; `none` = any failure: non-success status, exception or
  malformed response, all of which the Python code turns into the default
  advice);
* `strftime`/f-string decimal rendering of numbers and dates is abstracted
  by the injective helpers `fmtQ`, `fmtTime`, `dayNameStr`; no claim
  inspects the text these produce.
-/

/-- one entry of `forecast_data['list']`. `dt` is the Unix timestamp,
`pressure`/`temp` model `item['main']['pressure']` / `item['main']['temp']`
(`none` = key path absent), `weather` the description strings of
`item['weather']`. -/
structure Sample where
  dt : Int
  pressure : Option ℚ
  temp : Option ℚ
  weather : List String
deriving DecidableEq, Repr

/-- runtime configuration read from environment variables at module load. -/
structure Config where
  pressureThreshold : ℚ      -- PRESSURE_THRESHOLD (default 1010)
  changeThreshold : ℚ        -- PRESSURE_CHANGE_THRESHOLD (default 6)
  alertThreshold : ℚ         -- PRESSURE_ALERT_THRESHOLD (default 8)
  useGroqEnv : Option String -- USE_GROQ environment string
  groqKey : Option String    -- GROQ_API_KEY
  groqResp : Option String   -- outcome of the single external Groq call

/-- abstract rendering of a rational for message text (stands in for
Python `:.1f` / `:.0f` formatting, whose exact digits no claim inspects). -/
def fmtQ (q : ℚ) : String :=
  toString q.num ++ "/" ++ toString q.den

/-- abstract rendering of a timestamp (stands in for `strftime`). -/
def fmtTime (t : Int) : String :=
  toString t

/-- abstract rendering of `get_day_name` for the day key (stands in for the
Japanese month/day(weekday) label, a pure function of the calendar date). -/
def dayNameStr (k : Int) : String :=
  toString k

/-- calendar-date key of a timestamp in JST (UTC+9, no DST): two samples
print the same `%Y-%m-%d` in `Asia/Tokyo` iff they share this day index. -/
def jstDateKey (dt : Int) : Int :=
  (dt + 32400).fdiv 86400

/-- day key of a sample (`datetime.fromtimestamp(item['dt'], JST)` date). -/
def sampleKey (s : Sample) : Int :=
  jstDateKey s.dt

/-! ## Advice Composer (`get_default_health_advice`, lines 458-514) -/

/-- rain template (lines 475-481). -/
def adviceRain : String :=
  "\n【雨天時の健康アドバイス】\n☔ 湿度管理を心がける\n🍵 温かい飲み物を摂る\n🧘‍♀️ リラックスする時間を作る\n💪 室内でストレッチを行う\n"

/-- snow template (lines 483-489). -/
def adviceSnow : String :=
  "\n【雪の日の健康アドバイス】\n❄️ 転倒に注意する\n🧣 防寒対策をしっかりと\n🍲 温かい食事を心がける\n🚶‍♂️ 無理な外出は控える\n"

/-- cloudy template (lines 491-497). -/
def adviceCloud : String :=
  "\n【曇り空の健康アドバイス】\n😊 ポジティブな気持ちを保つ\n🚶‍♀️ 軽い運動を取り入れる\n🥗 ビタミンDを意識した食事\n💡 明るい照明で気分転換\n"

/-- sunny template (lines 499-505). -/
def adviceSunny : String :=
  "\n【晴れの日の健康アドバイス】\n☀️ 適切な日焼け対策を\n💧 こまめな水分補給を\n🏃‍♂️ 外での適度な運動を\n🥗 新鮮な野菜・果物を摂る\n"

/-- generic template (lines 508-514). -/
def adviceGeneric : String :=
  "\n【一般的な健康アドバイス】\n💧 水分をこまめに摂取する\n🚶‍♀️ 適度な運動を心がける\n😴 十分な睡眠をとる\n🍎 バランスの良い食事を\n"

/-- the five canned templates. -/
def cannedAdvices : List String :=
  [adviceRain, adviceSnow, adviceCloud, adviceSunny, adviceGeneric]

/-- Python `str.lower` (identity on the CJK tokens involved here);
operates on the character list so that it reduces in the kernel. -/
def strToLower (s : String) : String :=
  String.mk (s.data.map Char.toLower)

/-- Python `c in s` for a single-character token. -/
def strContainsChar (s : String) (c : Char) : Bool :=
  s.data.contains c

/-- Python string truthiness test (`if weather_condition:`). -/
def strIsEmpty (s : String) : Bool :=
  s.data.isEmpty

/-- embedding of `get_default_health_advice` (lines 458-514):
lowercase the condition (`str.lower`, identity on the CJK tokens), then
substring-check the single-character tokens 雨/雪/曇/晴 in priority order;
a `None` or empty condition (Python falsy) yields the generic template. -/
def get_default_health_advice (weather_condition : Option String) : String :=
  match weather_condition with
  | none => adviceGeneric
  | some w =>
    if strIsEmpty w then adviceGeneric
    else
      let lw := strToLower w
      if strContainsChar lw '雨' then adviceRain
      else if strContainsChar lw '雪' then adviceSnow
      else if strContainsChar lw '曇' then adviceCloud
      else if strContainsChar lw '晴' then adviceSunny
      else adviceGeneric

/-- the guard `USE_GROQ and USE_GROQ.lower() == 'true' and GROQ_API_KEY`
(line 372): both strings present and truthy (non-empty) and the flag
lowercases to `"true"`. -/
def groqEnabled (useGroqEnv groqKey : Option String) : Bool :=
  match useGroqEnv, groqKey with
  | some u, some k => !strIsEmpty u && (strToLower u == "true") && !strIsEmpty k
  | _, _ => false

/-- embedding of `get_pressure_health_advice` (lines 360-456).  When the
Groq tier is enabled and the call succeeds (status 200 with parseable
body, `groqResp = some advice`) the wrapped advice is returned; every
failure mode (non-200 status, exception, malformed body — all caught by
the broad `except`) and the disabled case return the canned default.  The
`pressure_data` argument only feeds the prompt sent to the external
service, so it does not appear in the embedding. -/
def get_pressure_health_advice (cfg : Config)
    (weather_condition : Option String) : String :=
  if groqEnabled cfg.useGroqEnv cfg.groqKey then
    match cfg.groqResp with
    | some advice => "\n【健康アドバイス】\n" ++ advice
    | none => get_default_health_advice weather_condition
  else
    get_default_health_advice weather_condition

/-! ## Day-to-day trend classification (`format_pressure_message`,
lines 537-546) -/

/-- the five narrative bands of the day-to-day trend sentence. -/
inductive TrendBand where
  | sharpRise
  | mildRise
  | sharpFall
  | mildFall
  | stable
deriving DecidableEq, Repr

/-- the `if`/`elif` cascade of lines 537-546 deciding which sentence is
appended for `change = tomorrow_pressure - today_pressure`. -/
def classifyTrend (changeThreshold change : ℚ) : TrendBand :=
  if change > changeThreshold then .sharpRise
  else if change > 0 then .mildRise
  else if change < -changeThreshold then .sharpFall
  else if change < 0 then .mildFall
  else .stable

/-- the sentence appended by lines 537-546, selected by the band. -/
def trendSentence (changeThreshold change : ℚ) : String :=
  match classifyTrend changeThreshold change with
  | .sharpRise => "明日は気圧が" ++ fmtQ |change| ++ "hPa上昇する予報です。頭痛や関節痛が出やすくなるかもしれません。水分をしっかり取って、無理をしないようにしましょう。"
  | .mildRise => "明日は気圧が" ++ fmtQ |change| ++ "hPa上昇する予報です。体調の変化に注意して、十分な休息を取るようにしましょう。"
  | .sharpFall => "明日は気圧が" ++ fmtQ |change| ++ "hPa下降する予報です。自律神経に影響が出やすいので、ゆっくり休息を取り、温かい飲み物を摂るといいでしょう。"
  | .mildFall => "明日は気圧が" ++ fmtQ |change| ++ "hPa下降する予報です。疲れやすく感じるかもしれないので、無理せず過ごしましょう。"
  | .stable => "明日も気圧は安定しています。快適に過ごせる一日になりそうです。"

/-! ## 24h alert scan (`detect_pressure_alert`, lines 616-652) -/

/-- result tuple of `detect_pressure_alert`:
`(triggered, alert message, max pressure change, change time string)`. -/
structure AlertResult where
  triggered : Bool
  message : String
  maxChange : ℚ
  changeTime : String
deriving DecidableEq, Repr

/-- the loop of lines 637-645: walk the remaining samples keeping the
previous pressure, the running maximum `|Δpressure|` and the timestamp of
the maximal jump (`none` while no strictly larger jump was seen).
`none` models an uncaught `KeyError` from a missing pressure field. -/
def alertScanLoop : List Sample → ℚ → ℚ → Option Int → Option (ℚ × Option Int)
  | [], _, maxC, maxT => some (maxC, maxT)
  | s :: ss, prev, maxC, maxT =>
    match s.pressure with
    | none => none
    | some cur =>
      let change := |cur - prev|
      if change > maxC then alertScanLoop ss cur change (some s.dt)
      else alertScanLoop ss cur maxC maxT

/-- the alert message of line 649. -/
def alertMessage (t : Int) (maxC : ℚ) : String :=
  "⚠️ 気圧変化アラート ⚠️\n" ++ fmtTime t ++ "頃に" ++ fmtQ maxC ++ "hPaの急激な気圧変化が予測されています。体調の変化に注意してください。"

/-- embedding of `detect_pressure_alert` (lines 616-652).  A falsy
payload, a missing `'list'` key or fewer than 8 samples short-circuit to
the no-alert tuple; otherwise the first 8 samples are scanned.  The final
`none` arm models line 649 evaluating `max_change_time.strftime` while
`max_change_time` is still `None` (an uncaught `AttributeError`). -/
def detect_pressure_alert (alertThreshold : ℚ)
    (hourly_data : Option (Option (List Sample))) : Option AlertResult :=
  match hourly_data with
  | none => some ⟨false, "", 0, ""⟩
  | some none => some ⟨false, "", 0, ""⟩
  | some (some l) =>
    if l.length < 8 then some ⟨false, "", 0, ""⟩
    else
      match l.take 8 with
      | [] => none
      | s0 :: rest =>
        match s0.pressure with
        | none => none
        | some p0 =>
          match alertScanLoop rest p0 0 none with
          | none => none
          | some (maxC, maxT) =>
            if maxC ≥ alertThreshold then
              match maxT with
              | some t => some ⟨true, alertMessage t maxC, maxC, fmtTime t⟩
              | none => none
            else
              some ⟨false, "", maxC, ""⟩

/-! ## Daily Aggregator (`process_forecast_data`, lines 104-151) -/

/-- the per-date dict as built by the first loop of
`process_forecast_data` (lines 122-136), before statistics are added. -/
structure RawBucket where
  pressures : List ℚ
  temps : List ℚ
  weather : List String
  day_name : String
deriving DecidableEq, Repr

/-- a finished per-date entry of `process_forecast_data`'s result
(lines 138-149 add the computed statistics to the same dict). -/
structure DayBucket where
  pressures : List ℚ
  temps : List ℚ
  weather : List String
  day_name : String
  avg_pressure : ℚ
  max_pressure : ℚ
  min_pressure : ℚ
  avg_temp : ℚ
  max_temp : ℚ
  min_temp : ℚ
  common_weather : String
deriving DecidableEq, Repr

/-- one iteration's mutation of `daily_data`: create the bucket on first
occurrence of the date key (preserving dict insertion order, i.e. the new
key goes to the end), then append pressure, temperature and the first
weather description. -/
def insertItem (acc : List (Int × RawBucket)) (k : Int) (p t : ℚ) (w : String) :
    List (Int × RawBucket) :=
  match acc with
  | [] => [(k, ⟨[p], [t], [w], dayNameStr k⟩)]
  | (k', b) :: rest =>
    if k' = k then
      (k', ⟨b.pressures ++ [p], b.temps ++ [t], b.weather ++ [w], b.day_name⟩) :: rest
    else
      (k', b) :: insertItem rest k p t w

/-- one iteration of the first loop (lines 116-136): the accesses
`item['main']['pressure']`, `item['main']['temp']` and
`item['weather'][0]['description']` each raise (`none`) when absent. -/
def stepItem (acc : List (Int × RawBucket)) (s : Sample) :
    Option (List (Int × RawBucket)) :=
  match s.pressure, s.temp, s.weather.head? with
  | some p, some t, some w => some (insertItem acc (sampleKey s) p t w)
  | _, _, _ => none

/-- the whole first loop of `process_forecast_data`. -/
def groupItems : List Sample → List (Int × RawBucket) → Option (List (Int × RawBucket))
  | [], acc => some acc
  | s :: rest, acc =>
    match stepItem acc s with
    | some acc' => groupItems rest acc'
    | none => none

/-- Python `max(list)` over a bucket's samples; buckets are non-empty by
construction, so the empty case (where Python would raise) is arbitrary. -/
def listMax : List ℚ → ℚ
  | [] => 0
  | a :: as => as.foldl max a

/-- Python `min(list)` over a bucket's samples. -/
def listMin : List ℚ → ℚ
  | [] => 0
  | a :: as => as.foldl min a

/-- distinct elements of a list in order of first appearance — the key
order of the Python `Counter` dict built from the list. -/
def firstOccur : List String → List String
  | [] => []
  | a :: as => a :: (firstOccur as).filter (fun x => x ≠ a)

/-- scan of the counter entries keeping the entry with the strictly
largest count — together with the first-appearance order of `firstOccur`
this reproduces `Counter.most_common(1)[0][0]`, whose tie-breaking keeps
the earliest-inserted key. -/
def pickMost (l : List String) : String → List String → String
  | best, [] => best
  | best, x :: xs =>
    if l.count best < l.count x then pickMost l x xs else pickMost l best xs

/-- `Counter(l).most_common(1)[0][0]` (line 148-149); buckets are
non-empty, so the empty case (where Python would raise) is arbitrary. -/
def mostCommon (l : List String) : String :=
  match firstOccur l with
  | [] => ""
  | b :: bs => pickMost l b bs

/-- the statistics loop of lines 138-149 applied to one bucket. -/
def finalizeBucket (b : RawBucket) : DayBucket :=
  { pressures := b.pressures
    temps := b.temps
    weather := b.weather
    day_name := b.day_name
    avg_pressure := b.pressures.sum / b.pressures.length
    max_pressure := listMax b.pressures
    min_pressure := listMin b.pressures
    avg_temp := b.temps.sum / b.temps.length
    max_temp := listMax b.temps
    min_temp := listMin b.temps
    common_weather := mostCommon b.weather }

/-- embedding of `process_forecast_data` (lines 104-151) applied to the
`forecast_data['list']` entries; `none` models an uncaught exception
raised while reading a sample's fields. -/
def process_forecast_data (items : List Sample) : Option (List (Int × DayBucket)) :=
  (groupItems items []).map (List.map (fun kb => (kb.1, finalizeBucket kb.2)))

/-! ## Message builders (`format_pressure_message` lines 516-614,
`format_hourly_pressure_message` lines 654-716) -/

/-- the fixed failure string of line 521. -/
def failForecastMsg : String := "天気予報データの取得に失敗しました。"

/-- the fixed failure string of line 665. -/
def failHourlyMsg : String := "時間単位の気圧データを取得できませんでした。"

/-- the day labels of the days whose average pressure is below the
low-pressure threshold (lines 549-553 and 563-567). -/
def lowPressureDays (cfg : Config) (daily : List (Int × DayBucket)) : List String :=
  (daily.filter (fun kb => kb.2.avg_pressure < cfg.pressureThreshold)).map
    (fun kb => kb.2.day_name)

/-- the adjacent-day change fragments of lines 573-583: one fragment per
adjacent pair whose absolute average-pressure delta meets the change
threshold. -/
def pressureChangeLines (cfg : Config) (daily : List (Int × DayBucket)) : List String :=
  (daily.zip daily.tail).filterMap (fun pq =>
    let change := pq.2.2.avg_pressure - pq.1.2.avg_pressure
    if |change| ≥ cfg.changeThreshold then
      some (pq.2.2.day_name ++ "に" ++ fmtQ |change| ++ "hPa" ++
        (if change > 0 then "上昇" else "下降"))
    else none)

/-- the per-day forecast table lines of lines 590-597. -/
def fiveDayLines (daily : List (Int × DayBucket)) : List String :=
  daily.map (fun kb =>
    kb.2.day_name ++ ": " ++ fmtQ kb.2.avg_pressure ++ "hPa (" ++ kb.2.common_weather ++ ")")

/-- embedding of `format_pressure_message` (lines 516-614).  `none` models
an uncaught exception; in particular the `list(daily_data.keys())[0]`
subscripts are embedded as fallible index accesses, so an empty
`daily_data` (empty `'list'`) raises at line 559 exactly as Python does. -/
def format_pressure_message (cfg : Config)
    (forecast_data : Option (Option (List Sample))) : Option String :=
  match forecast_data with
  | none => some failForecastMsg
  | some none => some failForecastMsg
  | some (some items) => do
    let daily ← process_forecast_data items
    let parts1 : List String := ["【松江市の気圧情報】", "\n【気圧予報のポイント】"]
    let parts2 ←
      if 1 < daily.length then do
        let kb0 ← daily[0]?
        let kb1 ← daily[1]?
        let change := kb1.2.avg_pressure - kb0.2.avg_pressure
        let lows := lowPressureDays cfg daily
        pure (parts1 ++ [trendSentence cfg.changeThreshold change] ++
          (if lows ≠ [] then
            [String.intercalate ", " lows ++ "は低気圧になる予報です。体調管理に気をつけましょう。"]
          else []))
      else pure parts1
    let kb0 ← daily[0]?
    let parts3 := parts2 ++ ["現在の気圧: " ++ fmtQ kb0.2.avg_pressure ++ "hPa"]
    let lows := lowPressureDays cfg daily
    let parts4 := parts3 ++
      (if lows ≠ [] then ["低気圧の日: " ++ String.intercalate ", " lows] else [])
    let pchanges := pressureChangeLines cfg daily
    let parts5 := parts4 ++
      (if pchanges ≠ [] then ["気圧変化: " ++ String.intercalate ", " pchanges] else [])
    let parts6 := parts5 ++ ["\n【5日間気圧予報】"] ++ fiveDayLines daily
    let kb0b ← daily[0]?
    let advice := get_pressure_health_advice cfg (some kb0b.2.common_weather)
    pure (String.intercalate "\n" (parts6 ++ [advice]))

/-- embedding of `format_hourly_pressure_message` (lines 654-716);
`none` models an uncaught exception (e.g. `hourly_data['list'][0]` on an
empty list). -/
def format_hourly_pressure_message (cfg : Config)
    (hourly_data : Option (Option (List Sample))) : Option String :=
  match hourly_data with
  | none => some failHourlyMsg
  | some none => some failHourlyMsg
  | some (some l) => do
    let first ← l[0]?
    let firstP ← first.pressure
    let line1 := "【24時間気圧予報】\n" ++ fmtTime first.dt ++ " " ++ fmtQ firstP ++ "hPa\n"
    let line2 ←
      if 8 ≤ l.length then do
        let lastI ← l[7]?
        let lastP ← lastI.pressure
        pure (fmtTime lastI.dt ++ " " ++ fmtQ lastP ++ "hPa\n")
      else pure ""
    let line3 ←
      if 8 ≤ l.length then do
        let s7 ← l[7]?
        let p7 ← s7.pressure
        let ch := p7 - firstP
        let sym := if ch > 0 then "↑" else if ch < 0 then "↓" else "→"
        pure ("\n24時間変化: " ++ sym ++ " " ++ fmtQ |ch| ++ "hPa\n")
      else pure ""
    let alert ← detect_pressure_alert cfg.alertThreshold (some (some l))
    let line4 := if alert.triggered then "\n" ++ alert.message ++ "\n" else ""
    let advice := get_pressure_health_advice cfg first.weather.head?
    pure (line1 ++ line2 ++ line3 ++ line4 ++ "\n【健康アドバイス】\n" ++ advice)

/-! ## Spec-side helper definitions used only to state properties -/

/-- the pressures carried by a sample list, in order. -/
def pressuresOf (l : List Sample) : List ℚ :=
  l.filterMap (fun s => s.pressure)

/-- the consecutive absolute differences `|p[i+1] - p[i]|` of a pressure
series (used to state what the 24h alert scan maximises over). -/
def absDiffs : List ℚ → List ℚ
  | [] => []
  | [_] => []
  | a :: b :: rest => |b - a| :: absDiffs (b :: rest)

/-- pressures of the samples falling on day `d`, in series order. -/
def dayPressures (items : List Sample) (d : Int) : List ℚ :=
  (items.filter (fun s => sampleKey s = d)).filterMap (fun s => s.pressure)

/-- temperatures of the samples falling on day `d`, in series order. -/
def dayTemps (items : List Sample) (d : Int) : List ℚ :=
  (items.filter (fun s => sampleKey s = d)).filterMap (fun s => s.temp)

/-- first weather descriptions of the samples falling on day `d`. -/
def dayWeathers (items : List Sample) (d : Int) : List String :=
  (items.filter (fun s => sampleKey s = d)).filterMap (fun s => s.weather.head?)

/-- association-list lookup on the grouped buckets (first match). -/
def lookupB : List (Int × RawBucket) → Int → Option RawBucket
  | [], _ => none
  | (k, b) :: rest, d => if k = d then some b else lookupB rest d

/-- a well-formed sample: every field path the aggregator reads exists. -/
def wfSample (s : Sample) : Prop :=
  s.pressure.isSome = true ∧ s.temp.isSome = true ∧ s.weather ≠ []

/-- a configuration with the Groq tier disabled (flag string "false"). -/
def cfgDisabled : Config :=
  ⟨1010, 6, 8, some "false", none, none⟩

/-- a configuration with the Groq tier enabled but the external call
failing. -/
def cfgEnabledFailing : Config :=
  ⟨1010, 6, 8, some "true", some "dummy-key", none⟩

/-- a small concrete series: two samples on one JST day (with a weather
tie) and one on the next day; used to instantiate universally quantified
theorems. -/
def witnessSeries : List Sample :=
  [⟨0, some 1008, some 10, ["晴れ"]⟩,
   ⟨3600, some 1012, some 14, ["曇り"]⟩,
   ⟨100000, some 1002, some 12, ["曇り"]⟩]

/-! ## Theorems -/

/-- helper: the canned default advice is always one of the five templates. -/
theorem default_advice_mem_canned (w : Option String) :
    get_default_health_advice w ∈ cannedAdvices := by
  unfold get_default_health_advice cannedAdvices
  cases w with
  | none => simp
  | some s => dsimp only; split_ifs <;> simp

/-- C3: the day-to-day trend classification of the 5-day message builder
maps `delta = next.avgPressure - prev.avgPressure` into exactly the five
bands `(changeThreshold, ∞)` sharp rise, `(0, changeThreshold]` mild rise,
`[-changeThreshold, 0)` mild fall, `(-∞, -changeThreshold)` sharp fall and
`{0}` stable; in particular `+7` with threshold 6 is a sharp rise, `+7`
with threshold 8 a mild rise, and `0` is stable for every (nonnegative)
threshold. -/
theorem trend_bands_match_code (T d : ℚ) (hT : 0 ≤ T) :
    (classifyTrend T d = TrendBand.sharpRise ↔ T < d) ∧
    (classifyTrend T d = TrendBand.mildRise ↔ 0 < d ∧ d ≤ T) ∧
    (classifyTrend T d = TrendBand.mildFall ↔ -T ≤ d ∧ d < 0) ∧
    (classifyTrend T d = TrendBand.sharpFall ↔ d < -T) ∧
    (classifyTrend T d = TrendBand.stable ↔ d = 0) ∧
    classifyTrend 6 7 = TrendBand.sharpRise ∧
    classifyTrend 8 7 = TrendBand.mildRise ∧
    classifyTrend T 0 = TrendBand.stable := by
  have c1 : classifyTrend 6 7 = TrendBand.sharpRise := by norm_num [classifyTrend]
  have c2 : classifyTrend 8 7 = TrendBand.mildRise := by norm_num [classifyTrend]
  have c3 : classifyTrend T 0 = TrendBand.stable := by
    unfold classifyTrend
    split_ifs with h1 h2 h3 h4 <;> first | rfl | linarith
  refine ⟨?_, ?_, ?_, ?_, ?_, c1, c2, c3⟩ <;>
    · unfold classifyTrend
      split_ifs with h1 h2 h3 h4 <;>
        constructor <;>
          intro h <;>
            first
            | rfl
            | exact absurd h (by decide)
            | linarith
            | exact ⟨by linarith, by linarith⟩
            | (exfalso; exact absurd h (by push_neg; constructor <;> linarith))
            | (exfalso; obtain ⟨ha, hb⟩ := h; linarith)
            | (exfalso; linarith)

/-- C3 witness: the theorem applied at `threshold = 6`, `delta = 7`. -/
theorem trend_bands_match_code_witness :
    classifyTrend 6 7 = TrendBand.sharpRise :=
  (trend_bands_match_code 6 7 (by norm_num)).2.2.2.2.2.1

/-- C4 counterexample: `delta = 3` with `changeThreshold = 6` satisfies
`|delta| < changeThreshold` but the builder classifies it as a mild rise,
not as stable. -/
theorem small_delta_not_stable_cex :
    |(3 : ℚ)| < 6 ∧
    classifyTrend 6 3 = TrendBand.mildRise ∧
    classifyTrend 6 3 ≠ TrendBand.stable := by
  have h2 : classifyTrend 6 3 = TrendBand.mildRise := by norm_num [classifyTrend]
  exact ⟨by norm_num, h2, by rw [h2]; decide⟩

/-- C4 amended: only a delta of exactly 0 is classified as stable; a
nonzero delta with `|delta| < changeThreshold` yields the mild rise/fall
narrative instead. -/
theorem stable_iff_zero_delta (T d : ℚ) (hT : 0 ≤ T) :
    (classifyTrend T d = TrendBand.stable ↔ d = 0) ∧
    (0 < d → d ≤ T → classifyTrend T d = TrendBand.mildRise) ∧
    (d < 0 → -T ≤ d → classifyTrend T d = TrendBand.mildFall) := by
  unfold classifyTrend
  split_ifs with h1 h2 h3 h4 <;>
    refine ⟨?_, ?_, ?_⟩ <;>
      first
      | (intro ha hb; first | rfl | linarith | exact absurd rfl (by decide))
      | (constructor <;> intro h <;> first | rfl | linarith | exact absurd h (by decide))

/-- C4 witness: the amended theorem applied at `threshold = 6`, `delta = 0`. -/
theorem stable_iff_zero_delta_witness :
    classifyTrend 6 0 = TrendBand.stable :=
  ((stable_iff_zero_delta 6 0 (by norm_num)).1).mpr rfl

/-- C5: with the external tier disabled (flag off or credential absent),
the Advice Composer returns exactly one of the five canned templates,
selected by substring match on the (lowercased) weather condition in the
priority order rain, snow, cloud, clear/sunny, generic; an absent
condition yields the generic template; a condition containing both the
cloud and the rain token resolves to the rain template. -/
theorem advice_canned_selection (cfg : Config) (w : Option String)
    (hdis : groqEnabled cfg.useGroqEnv cfg.groqKey = false) :
    get_pressure_health_advice cfg w = get_default_health_advice w ∧
    get_pressure_health_advice cfg w ∈ cannedAdvices ∧
    (w = none → get_default_health_advice w = adviceGeneric) ∧
    (∀ s, w = some s → strIsEmpty s = false →
      let lw := strToLower s
      (strContainsChar lw '雨' = true → get_default_health_advice w = adviceRain) ∧
      (strContainsChar lw '雨' = false → strContainsChar lw '雪' = true →
        get_default_health_advice w = adviceSnow) ∧
      (strContainsChar lw '雨' = false → strContainsChar lw '雪' = false →
        strContainsChar lw '曇' = true → get_default_health_advice w = adviceCloud) ∧
      (strContainsChar lw '雨' = false → strContainsChar lw '雪' = false →
        strContainsChar lw '曇' = false → strContainsChar lw '晴' = true →
        get_default_health_advice w = adviceSunny) ∧
      (strContainsChar lw '雨' = false → strContainsChar lw '雪' = false →
        strContainsChar lw '曇' = false → strContainsChar lw '晴' = false →
        get_default_health_advice w = adviceGeneric)) ∧
    get_default_health_advice (some "曇り時々雨") = adviceRain := by
  have heq : get_pressure_health_advice cfg w = get_default_health_advice w := by
    simp [get_pressure_health_advice, hdis]
  refine ⟨heq, heq ▸ default_advice_mem_canned w, ?_, ?_, ?_⟩
  · intro hw; subst hw; rfl
  · intro s hw hemp
    subst hw
    refine ⟨?_, ?_, ?_, ?_, ?_⟩ <;>
      · intros
        simp_all [get_default_health_advice]
  · decide

/-- C5 witness: the theorem applied at the disabled configuration and the
condition containing both the cloud token and the rain token. -/
theorem advice_canned_selection_witness :
    get_default_health_advice (some "曇り時々雨") = adviceRain :=
  (advice_canned_selection cfgDisabled (some "曇り時々雨") (by decide)).2.2.2.2

/-- C9: with the external tier enabled, any failure of the single
external text-generation call (non-success status, exception or malformed
response, all modelled by `groqResp = none`) makes the Advice Composer
fall through to the canned tier; the result is a canned template and the
composer returns normally (it is a total function). -/
theorem advice_external_failure_fallback (cfg : Config) (w : Option String)
    (hen : groqEnabled cfg.useGroqEnv cfg.groqKey = true)
    (hfail : cfg.groqResp = none) :
    get_pressure_health_advice cfg w = get_default_health_advice w ∧
    get_pressure_health_advice cfg w ∈ cannedAdvices := by
  have heq : get_pressure_health_advice cfg w = get_default_health_advice w := by
    simp [get_pressure_health_advice, hen, hfail]
  exact ⟨heq, heq ▸ default_advice_mem_canned w⟩

/-- C9 witness: the theorem applied at an enabled configuration whose
external call failed. -/
theorem advice_external_failure_fallback_witness :
    get_pressure_health_advice cfgEnabledFailing none =
      get_default_health_advice none ∧
    get_pressure_health_advice cfgEnabledFailing none ∈ cannedAdvices :=
  advice_external_failure_fallback cfgEnabledFailing none (by decide) rfl

/-- C6: when the payload is absent (falsy) or lacks the `'list'` key,
both message builders return their fixed Japanese failure string without
raising. -/
theorem builders_missing_list_fixed_string (cfg : Config)
    (d : Option (Option (List Sample)))
    (h : d = none ∨ d = some none) :
    format_pressure_message cfg d = some failForecastMsg ∧
    format_hourly_pressure_message cfg d = some failHourlyMsg := by
  rcases h with h | h <;> subst h <;> exact ⟨rfl, rfl⟩

/-- C6 witness: the theorem applied at the absent payload. -/
theorem builders_missing_list_fixed_string_witness :
    format_pressure_message cfgDisabled none = some failForecastMsg ∧
    format_hourly_pressure_message cfgDisabled none = some failHourlyMsg :=
  builders_missing_list_fixed_string cfgDisabled none (Or.inl rfl)

/-- C10: when the `'list'` key is present but holds an empty sequence,
the 5-day builder's guard does not catch it: the aggregation yields an
empty mapping and the subsequent `list(daily_data.keys())[0]` subscript
fails, so the builder produces no message string (the embedded exception
result `none`). -/
theorem five_day_builder_empty_list_raises (cfg : Config) :
    format_pressure_message cfg (some (some [])) = none := by
  rfl

/-- C7 counterexample: a series of 8 samples whose first sample lacks the
pressure field makes the detector raise (`none`), instead of returning
the no-alert result the claim promises. -/
theorem alert_missing_pressure_raises_cex :
    detect_pressure_alert 8
        (some (some (List.replicate 8 (⟨0, none, none, []⟩ : Sample)))) = none ∧
    (none : Option AlertResult) ≠ some ⟨false, "", 0, ""⟩ := by
  exact ⟨rfl, by decide⟩

/-- C7 amended: the detector returns the no-alert result without touching
any sample field whenever the payload is absent, lacks the `'list'` key,
or carries fewer than 8 samples (in particular fewer than 1); a missing
pressure field is only survived by that length guard — with 8 or more
samples it raises. -/
theorem alert_detector_short_series_no_alert (thr : ℚ)
    (d : Option (Option (List Sample)))
    (h : ∀ l, d = some (some l) → l.length < 8) :
    detect_pressure_alert thr d = some ⟨false, "", 0, ""⟩ := by
  match d with
  | none => rfl
  | some none => rfl
  | some (some l) =>
    have hl := h l rfl
    simp only [detect_pressure_alert]
    rw [if_pos hl]

/-- C7 witness: the amended theorem applied at the empty series. -/
theorem alert_detector_short_series_no_alert_witness :
    detect_pressure_alert 8 (some (some [])) = some ⟨false, "", 0, ""⟩ :=
  alert_detector_short_series_no_alert 8 (some (some []))
    (by intro l hl; cases hl; decide)

/-- helper: every consecutive absolute difference is nonnegative. -/
theorem absDiffs_nonneg : ∀ (xs : List ℚ), ∀ d ∈ absDiffs xs, 0 ≤ d := by
  intro xs
  induction xs with
  | nil => intro d hd; simp [absDiffs] at hd
  | cons a as ih =>
    intro d hd
    match as, hd with
    | [], hd => simp [absDiffs] at hd
    | b :: bs, hd =>
      rw [absDiffs] at hd
      rcases List.mem_cons.mp hd with h | h
      · rw [h]; exact abs_nonneg _
      · exact ih d h

/-- helper: a fully-pressurised sample list yields one pressure per sample. -/
theorem pressuresOf_length : ∀ (l : List Sample),
    (∀ s ∈ l, (s.pressure).isSome = true) → (pressuresOf l).length = l.length := by
  intro l
  induction l with
  | nil => intro _; rfl
  | cons s ss ih =>
    intro hwf
    obtain ⟨p, hp⟩ := Option.isSome_iff_exists.mp (hwf s (List.mem_cons_self s ss))
    have := ih (fun x hx => hwf x (List.mem_cons_of_mem s hx))
    simp [pressuresOf, hp] at this ⊢
    exact this

/-- helper: specification of the running-maximum loop of
`detect_pressure_alert` (lines 637-645).  On a fully-pressurised suffix
it returns a maximum `m` that dominates every consecutive absolute
difference, never shrinks the accumulator, and whose timestamp is the
original accumulator exactly when no strictly larger jump was found. -/
theorem alertScanLoop_spec (ss : List Sample) : ∀ (prev maxC : ℚ) (maxT : Option Int),
    (∀ s ∈ ss, (s.pressure).isSome = true) →
    ∃ m t, alertScanLoop ss prev maxC maxT = some (m, t) ∧
      maxC ≤ m ∧
      (∀ d ∈ absDiffs (prev :: pressuresOf ss), d ≤ m) ∧
      ((m = maxC ∧ t = maxT) ∨
        (m ∈ absDiffs (prev :: pressuresOf ss) ∧ ∃ z : Int, t = some z)) := by
  induction ss with
  | nil =>
    intro prev maxC maxT _
    refine ⟨maxC, maxT, rfl, le_refl _, ?_, Or.inl ⟨rfl, rfl⟩⟩
    intro d hd
    simp [pressuresOf, absDiffs] at hd
  | cons s ss ih =>
    intro prev maxC maxT hwf
    obtain ⟨cur, hcur⟩ := Option.isSome_iff_exists.mp (hwf s (List.mem_cons_self s ss))
    have hwf' : ∀ x ∈ ss, (x.pressure).isSome = true :=
      fun x hx => hwf x (List.mem_cons_of_mem s hx)
    have hps : pressuresOf (s :: ss) = cur :: pressuresOf ss := by
      simp [pressuresOf, hcur]
    have hdiffs : absDiffs (prev :: pressuresOf (s :: ss)) =
        |cur - prev| :: absDiffs (cur :: pressuresOf ss) := by
      rw [hps, absDiffs]
    by_cases hgt : |cur - prev| > maxC
    · obtain ⟨m, t, hloop, hle, hub, hdisj⟩ := ih cur |cur - prev| (some s.dt) hwf'
      refine ⟨m, t, ?_, by linarith, ?_, ?_⟩
      · simp only [alertScanLoop, hcur]
        rw [if_pos hgt]
        exact hloop
      · intro d hd
        rw [hdiffs] at hd
        rcases List.mem_cons.mp hd with h | h
        · rw [h]; linarith
        · exact hub d h
      · rcases hdisj with ⟨hm, ht⟩ | ⟨hmem, hz⟩
        · refine Or.inr ⟨?_, s.dt, ht⟩
          rw [hdiffs, hm]
          exact List.mem_cons_self _ _
        · exact Or.inr ⟨by rw [hdiffs]; exact List.mem_cons_of_mem _ hmem, hz⟩
    · obtain ⟨m, t, hloop, hle, hub, hdisj⟩ := ih cur maxC maxT hwf'
      refine ⟨m, t, ?_, hle, ?_, ?_⟩
      · simp only [alertScanLoop, hcur]
        rw [if_neg hgt]
        exact hloop
      · intro d hd
        rw [hdiffs] at hd
        rcases List.mem_cons.mp hd with h | h
        · rw [h]; push_neg at hgt; linarith
        · exact hub d h
      · rcases hdisj with hl | ⟨hmem, hz⟩
        · exact Or.inl hl
        · exact Or.inr ⟨by rw [hdiffs]; exact List.mem_cons_of_mem _ hmem, hz⟩

/-- C1: for a (positively) configured alert threshold, the 24h alert scan
over a series of at least 8 fully-pressurised samples returns a result
whose `maxChange` is exactly the maximum of `|p[i+1] - p[i]|` over the
first 8 samples (it dominates every consecutive difference and is one of
them), with `triggered` true iff that maximum reaches the threshold
(boundary inclusive); a series of fewer than 8 samples returns
`triggered = false`. -/
theorem alert_scan_max_and_threshold (thr : ℚ) (l : List Sample) (hthr : 0 < thr) :
    (8 ≤ l.length → (∀ s ∈ l, (s.pressure).isSome = true) →
      ∃ r, detect_pressure_alert thr (some (some l)) = some r ∧
        (∀ d ∈ absDiffs (pressuresOf (l.take 8)), d ≤ r.maxChange) ∧
        r.maxChange ∈ absDiffs (pressuresOf (l.take 8)) ∧
        (r.triggered = true ↔ thr ≤ r.maxChange)) ∧
    (l.length < 8 →
      detect_pressure_alert thr (some (some l)) = some ⟨false, "", 0, ""⟩) := by
  constructor
  · intro hlen hwf
    have htake_len : (l.take 8).length = 8 := by
      rw [List.length_take]; omega
    obtain ⟨s0, rest, htake⟩ : ∃ s0 rest, l.take 8 = s0 :: rest := by
      cases h : l.take 8 with
      | nil => rw [h] at htake_len; simp at htake_len
      | cons a as => exact ⟨a, as, rfl⟩
    have hwf8 : ∀ s ∈ l.take 8, (s.pressure).isSome = true :=
      fun s hs => hwf s (List.take_subset 8 l hs)
    have hs0 : (s0.pressure).isSome = true :=
      hwf8 s0 (htake ▸ List.mem_cons_self _ _)
    obtain ⟨p0, hp0⟩ := Option.isSome_iff_exists.mp hs0
    have hwfrest : ∀ s ∈ rest, (s.pressure).isSome = true :=
      fun s hs => hwf8 s (htake ▸ List.mem_cons_of_mem _ hs)
    obtain ⟨m, t, hloop, h0m, hub, hdisj⟩ := alertScanLoop_spec rest p0 0 none hwfrest
    have hps8 : pressuresOf (s0 :: rest) = p0 :: pressuresOf rest := by
      simp [pressuresOf, hp0]
    have hrest_len : rest.length = 7 := by
      rw [htake] at htake_len; simpa using htake_len
    have hrest_ps : pressuresOf rest ≠ [] := by
      intro hnil
      have := pressuresOf_length rest hwfrest
      rw [hnil, hrest_len] at this
      simp at this
    have hnotlt : ¬ l.length < 8 := by omega
    simp only [detect_pressure_alert]
    rw [if_neg hnotlt, htake]
    simp only [hp0, hloop]
    by_cases hge : m ≥ thr
    · have hm0 : m ≠ 0 := by
        intro h0; rw [h0] at hge; exact absurd (le_trans (le_of_lt hthr) hge) (by linarith)
      rcases hdisj with ⟨hm, _⟩ | ⟨hmem, z, ht⟩
      · exact absurd hm hm0
      · subst ht
        rw [if_pos hge]
        refine ⟨⟨true, alertMessage z m, m, fmtTime z⟩, rfl, ?_, ?_, ?_⟩
        · intro d hd; rw [hps8] at hd; exact hub d hd
        · rw [hps8]; exact hmem
        · simpa using hge
    · rw [if_neg hge]
      refine ⟨⟨false, "", m, ""⟩, rfl, ?_, ?_, ?_⟩
      · intro d hd; rw [hps8] at hd; exact hub d hd
      · rw [hps8]
        rcases hdisj with ⟨hm, _⟩ | ⟨hmem, _⟩
        · subst hm
          obtain ⟨x, ps, hxps⟩ : ∃ x ps, pressuresOf rest = x :: ps := by
            cases h : pressuresOf rest with
            | nil => exact absurd h hrest_ps
            | cons x ps => exact ⟨x, ps, rfl⟩
          rw [hxps, absDiffs]
          have hhead : |x - p0| ≤ 0 := by
            have := hub |x - p0| (by rw [hxps, absDiffs]; exact List.mem_cons_self _ _)
            linarith [this]
          have : |x - p0| = 0 := le_antisymm hhead (abs_nonneg _)
          rw [← this]
          exact List.mem_cons_self _ _
        · exact hmem
      · constructor
        · intro hcontra
          simp at hcontra
        · intro hc
          exact absurd hc hge
  · intro hlt
    simp only [detect_pressure_alert]
    rw [if_pos hlt]

/-- C1 witness: the theorem applied at threshold 8 and a concrete
8-sample series whose largest consecutive jump is 9 hPa. -/
theorem alert_scan_max_and_threshold_witness :
    ∃ r, detect_pressure_alert 8 (some (some (List.map
        (fun p => (⟨0, some p, some 20, ["晴れ"]⟩ : Sample))
        [1013, 1012, 1011, 1020, 1018, 1017, 1016, 1015]))) = some r ∧
      (∀ d ∈ absDiffs (pressuresOf ((List.map
        (fun p => (⟨0, some p, some 20, ["晴れ"]⟩ : Sample))
        [1013, 1012, 1011, 1020, 1018, 1017, 1016, 1015]).take 8)), d ≤ r.maxChange) ∧
      r.maxChange ∈ absDiffs (pressuresOf ((List.map
        (fun p => (⟨0, some p, some 20, ["晴れ"]⟩ : Sample))
        [1013, 1012, 1011, 1020, 1018, 1017, 1016, 1015]).take 8)) ∧
      (r.triggered = true ↔ (8 : ℚ) ≤ r.maxChange) :=
  (alert_scan_max_and_threshold 8 _ (by norm_num)).1 (by decide) (by decide)

/-- helper: the grouping loop raises as soon as it reaches a sample
without any weather description, whatever the accumulator. -/
theorem groupItems_weatherless_none : ∀ (items : List Sample)
    (acc : List (Int × RawBucket)) (s : Sample),
    s ∈ items → s.weather = [] → groupItems items acc = none := by
  intro items
  induction items with
  | nil => intro acc s hs _; simp at hs
  | cons a rest ih =>
    intro acc s hs hw
    rcases List.mem_cons.mp hs with h | h
    · subst h
      have hstep : stepItem acc s = none := by
        unfold stepItem
        rw [hw]
        cases s.pressure <;> cases s.temp <;> rfl
      simp only [groupItems, hstep]
    · cases hstep : stepItem acc a with
      | none => simp only [groupItems, hstep]
      | some acc' =>
        simp only [groupItems, hstep]
        exact ih acc' s h hw

/-- C8 counterexample: the empty series is not rejected — the aggregator
returns the ordinary (empty) per-day mapping instead of an error. -/
theorem aggregator_empty_no_error_cex :
    process_forecast_data [] = some [] ∧
    (some ([] : List (Int × DayBucket))) ≠ none :=
  ⟨rfl, by decide⟩

/-- C8 amended: a series containing a sample with no weather description
makes the aggregator raise (an uncaught `IndexError` on
`item['weather'][0]`, embedded as `none`) rather than return a mapping;
an empty series, however, is returned as the empty mapping without any
error. -/
theorem aggregator_missing_weather_raises (items : List Sample) (s : Sample)
    (hs : s ∈ items) (hw : s.weather = []) :
    process_forecast_data items = none ∧ process_forecast_data [] = some [] := by
  refine ⟨?_, rfl⟩
  unfold process_forecast_data
  rw [groupItems_weatherless_none items [] s hs hw]
  rfl

/-- C8 witness: the amended theorem applied at a one-sample series whose
sample carries no weather description. -/
theorem aggregator_missing_weather_raises_witness :
    process_forecast_data [(⟨0, some 1000, some 20, []⟩ : Sample)] = none ∧
    process_forecast_data [] = some [] :=
  aggregator_missing_weather_raises _ ⟨0, some 1000, some 20, []⟩
    (List.mem_cons_self _ _) rfl

/-- helper: effect of one dict mutation on lookup. -/
theorem lookupB_insertItem (acc : List (Int × RawBucket)) (k : Int) (p t : ℚ)
    (w : String) (d : Int) :
    lookupB (insertItem acc k p t w) d =
      if k = d then
        (match lookupB acc k with
          | some b => some ⟨b.pressures ++ [p], b.temps ++ [t], b.weather ++ [w], b.day_name⟩
          | none => some ⟨[p], [t], [w], dayNameStr k⟩)
      else lookupB acc d := by
  induction acc with
  | nil =>
    by_cases hkd : k = d <;> simp [insertItem, lookupB, hkd]
  | cons kb rest ih =>
    obtain ⟨k', b⟩ := kb
    by_cases hk : k' = k
    · subst hk
      by_cases hkd : k' = d
      · subst hkd
        simp [insertItem, lookupB]
      · simp [insertItem, lookupB, hkd]
    · by_cases hkd : k' = d
      · subst hkd
        have hne : ¬ k = k' := fun h => hk h.symm
        simp [insertItem, lookupB, hk, hne]
      · simp [insertItem, lookupB, hk, hkd, ih]

/-- helper: effect of one dict mutation on the key sequence. -/
theorem keys_insertItem (acc : List (Int × RawBucket)) (k : Int) (p t : ℚ)
    (w : String) :
    (insertItem acc k p t w).map Prod.fst =
      if k ∈ acc.map Prod.fst then acc.map Prod.fst
      else acc.map Prod.fst ++ [k] := by
  induction acc with
  | nil => simp [insertItem]
  | cons kb rest ih =>
    obtain ⟨k', b⟩ := kb
    by_cases hk : k' = k
    · subst hk
      simp [insertItem]
    · have hne : ¬ k = k' := fun h => hk h.symm
      by_cases hmem : k ∈ rest.map Prod.fst <;>
        simp [insertItem, hk, hne, hmem, ih]

/-- helper: dict mutation preserves distinctness of the keys. -/
theorem nodup_keys_insertItem (acc : List (Int × RawBucket)) (k : Int) (p t : ℚ)
    (w : String) (h : (acc.map Prod.fst).Nodup) :
    ((insertItem acc k p t w).map Prod.fst).Nodup := by
  rw [keys_insertItem]
  by_cases hmem : k ∈ acc.map Prod.fst
  · rw [if_pos hmem]; exact h
  · rw [if_neg hmem]
    simp [List.nodup_append, h, hmem]

/-- helper: lookup misses exactly the keys that are absent. -/
theorem lookupB_eq_none_iff (acc : List (Int × RawBucket)) (d : Int) :
    lookupB acc d = none ↔ d ∉ acc.map Prod.fst := by
  induction acc with
  | nil => simp [lookupB]
  | cons kb rest ih =>
    obtain ⟨k', b⟩ := kb
    by_cases hkd : k' = d
    · subst hkd
      simp [lookupB]
    · have hdk : ¬ d = k' := fun h => hkd h.symm
      simp [lookupB, hkd, hdk, ih]

/-- helper: under distinct keys, membership determines the lookup. -/
theorem lookupB_of_mem : ∀ (acc : List (Int × RawBucket)),
    (acc.map Prod.fst).Nodup → ∀ (k : Int) (b : RawBucket),
    (k, b) ∈ acc → lookupB acc k = some b := by
  intro acc
  induction acc with
  | nil => intro _ k b hm; simp at hm
  | cons kb rest ih =>
    intro hnd k b hm
    obtain ⟨k', b'⟩ := kb
    simp only [List.map_cons, List.nodup_cons] at hnd
    rcases List.mem_cons.mp hm with h | h
    · have h1 : k = k' := congrArg Prod.fst h
      have h2 : b = b' := congrArg Prod.snd h
      subst h1
      subst h2
      simp [lookupB]
    · have hne : ¬ k' = k := by
        intro he
        apply hnd.1
        rw [he]
        exact List.mem_map_of_mem Prod.fst h
      simp only [lookupB, if_neg hne]
      exact ih hnd.2 k b h

/-- helper: day pressures of a cons, sample on the day. -/
theorem dayPressures_cons_pos (s : Sample) (rest : List Sample) (d : Int)
    (h : sampleKey s = d) (p : ℚ) (hp : s.pressure = some p) :
    dayPressures (s :: rest) d = p :: dayPressures rest d := by
  simp [dayPressures, List.filter_cons, h, hp]

/-- helper: day pressures of a cons, sample off the day. -/
theorem dayPressures_cons_neg (s : Sample) (rest : List Sample) (d : Int)
    (h : ¬ sampleKey s = d) :
    dayPressures (s :: rest) d = dayPressures rest d := by
  simp [dayPressures, List.filter_cons, h]

/-- helper: day temperatures of a cons, sample on the day. -/
theorem dayTemps_cons_pos (s : Sample) (rest : List Sample) (d : Int)
    (h : sampleKey s = d) (t : ℚ) (ht : s.temp = some t) :
    dayTemps (s :: rest) d = t :: dayTemps rest d := by
  simp [dayTemps, List.filter_cons, h, ht]

/-- helper: day temperatures of a cons, sample off the day. -/
theorem dayTemps_cons_neg (s : Sample) (rest : List Sample) (d : Int)
    (h : ¬ sampleKey s = d) :
    dayTemps (s :: rest) d = dayTemps rest d := by
  simp [dayTemps, List.filter_cons, h]

/-- helper: day weathers of a cons, sample on the day. -/
theorem dayWeathers_cons_pos (s : Sample) (rest : List Sample) (d : Int)
    (h : sampleKey s = d) (w : String) (hw : s.weather.head? = some w) :
    dayWeathers (s :: rest) d = w :: dayWeathers rest d := by
  simp [dayWeathers, List.filter_cons, h, hw]

/-- helper: day weathers of a cons, sample off the day. -/
theorem dayWeathers_cons_neg (s : Sample) (rest : List Sample) (d : Int)
    (h : ¬ sampleKey s = d) :
    dayWeathers (s :: rest) d = dayWeathers rest d := by
  simp [dayWeathers, List.filter_cons, h]

/-- helper: full specification of the grouping loop relative to an
arbitrary accumulator: every pre-existing bucket is extended by its day's
fields in series order, every new day gets a fresh bucket holding exactly
its day's fields, keys are the union, and key distinctness is preserved. -/
theorem groupItems_spec : ∀ (items : List Sample) (acc : List (Int × RawBucket)),
    (∀ s ∈ items, wfSample s) →
    ∃ res, groupItems items acc = some res ∧
      (∀ d b0, lookupB acc d = some b0 →
        lookupB res d = some ⟨b0.pressures ++ dayPressures items d,
          b0.temps ++ dayTemps items d, b0.weather ++ dayWeathers items d, b0.day_name⟩) ∧
      (∀ d, lookupB acc d = none →
        lookupB res d =
          if d ∈ items.map sampleKey then
            some ⟨dayPressures items d, dayTemps items d, dayWeathers items d, dayNameStr d⟩
          else none) ∧
      (∀ d, d ∈ res.map Prod.fst ↔ d ∈ acc.map Prod.fst ∨ d ∈ items.map sampleKey) ∧
      ((acc.map Prod.fst).Nodup → (res.map Prod.fst).Nodup) := by
  intro items
  induction items with
  | nil =>
    intro acc _
    refine ⟨acc, rfl, ?_, ?_, ?_, fun h => h⟩
    · intro d b0 hb0
      show lookupB acc d = some ⟨b0.pressures ++ [], b0.temps ++ [], b0.weather ++ [], b0.day_name⟩
      simpa using hb0
    · intro d hd
      simpa using hd
    · intro d; simp
  | cons s rest ih =>
    intro acc hwf
    obtain ⟨hp, ht, hw⟩ := hwf s (List.mem_cons_self s rest)
    obtain ⟨p, hps⟩ := Option.isSome_iff_exists.mp hp
    obtain ⟨t0, hts⟩ := Option.isSome_iff_exists.mp ht
    obtain ⟨w0, hws⟩ : ∃ w0, s.weather.head? = some w0 := by
      cases hcw : s.weather with
      | nil => exact absurd hcw hw
      | cons a as => exact ⟨a, rfl⟩
    have hwf' : ∀ x ∈ rest, wfSample x := fun x hx => hwf x (List.mem_cons_of_mem s hx)
    have hstep : stepItem acc s = some (insertItem acc (sampleKey s) p t0 w0) := by
      unfold stepItem
      rw [hps, hts, hws]
    obtain ⟨res, hres, ih1, ih2, ih3, ih4⟩ := ih (insertItem acc (sampleKey s) p t0 w0) hwf'
    refine ⟨res, ?_, ?_, ?_, ?_, ?_⟩
    · simp only [groupItems, hstep]
      exact hres
    · intro d b0 hb0
      by_cases hkd : sampleKey s = d
      · subst hkd
        have hacc' : lookupB (insertItem acc (sampleKey s) p t0 w0) (sampleKey s) =
            some ⟨b0.pressures ++ [p], b0.temps ++ [t0], b0.weather ++ [w0], b0.day_name⟩ := by
          rw [lookupB_insertItem, if_pos rfl, hb0]
        have := ih1 (sampleKey s) _ hacc'
        rw [this]
        rw [dayPressures_cons_pos s rest _ rfl p hps,
          dayTemps_cons_pos s rest _ rfl t0 hts,
          dayWeathers_cons_pos s rest _ rfl w0 hws]
        simp [List.append_assoc]
      · have hacc' : lookupB (insertItem acc (sampleKey s) p t0 w0) d = some b0 := by
          rw [lookupB_insertItem, if_neg hkd]
          exact hb0
        have := ih1 d b0 hacc'
        rw [this]
        rw [dayPressures_cons_neg s rest d hkd, dayTemps_cons_neg s rest d hkd,
          dayWeathers_cons_neg s rest d hkd]
    · intro d hd
      by_cases hkd : sampleKey s = d
      · subst hkd
        have hacc' : lookupB (insertItem acc (sampleKey s) p t0 w0) (sampleKey s) =
            some ⟨[p], [t0], [w0], dayNameStr (sampleKey s)⟩ := by
          rw [lookupB_insertItem, if_pos rfl, hd]
        have := ih1 (sampleKey s) _ hacc'
        rw [this]
        have hmem : sampleKey s ∈ (s :: rest).map sampleKey := by simp
        rw [if_pos hmem]
        rw [dayPressures_cons_pos s rest _ rfl p hps,
          dayTemps_cons_pos s rest _ rfl t0 hts,
          dayWeathers_cons_pos s rest _ rfl w0 hws]
        simp
      · have hacc' : lookupB (insertItem acc (sampleKey s) p t0 w0) d = none := by
          rw [lookupB_insertItem, if_neg hkd]
          exact hd
        have := ih2 d hacc'
        rw [this]
        rw [dayPressures_cons_neg s rest d hkd, dayTemps_cons_neg s rest d hkd,
          dayWeathers_cons_neg s rest d hkd]
        by_cases hdm : d ∈ rest.map sampleKey
        · rw [if_pos hdm, if_pos (by simp [hdm])]
        · rw [if_neg hdm, if_neg ?_]
          simp only [List.map_cons, List.mem_cons]
          push_neg
          exact ⟨fun he => hkd he.symm, hdm⟩
    · intro d
      rw [ih3 d, keys_insertItem]
      by_cases hmem : sampleKey s ∈ acc.map Prod.fst
      · rw [if_pos hmem]
        have himp : d = sampleKey s → d ∈ acc.map Prod.fst := fun he => he ▸ hmem
        simp only [List.map_cons, List.mem_cons]
        tauto
      · rw [if_neg hmem]
        simp only [List.mem_append, List.map_cons, List.mem_cons, List.mem_singleton]
        tauto
    · intro hnd
      exact ih4 (nodup_keys_insertItem acc (sampleKey s) p t0 w0 hnd)

/-- helper: a fold of `max` attains an element of the seeded list and
dominates all of them. -/
theorem foldl_max_spec : ∀ (as : List ℚ) (a : ℚ),
    (as.foldl max a ∈ a :: as) ∧ (∀ x ∈ a :: as, x ≤ as.foldl max a) := by
  intro as
  induction as with
  | nil =>
    intro a
    refine ⟨List.mem_cons_self _ _, ?_⟩
    intro x hx
    rcases List.mem_cons.mp hx with h | h
    · exact le_of_eq h
    · simp at h
  | cons b bs ih =>
    intro a
    have hfold : (b :: bs).foldl max a = bs.foldl max (max a b) := rfl
    obtain ⟨hmem, hub⟩ := ih (max a b)
    constructor
    · rw [hfold]
      rcases List.mem_cons.mp hmem with h | h
      · rcases max_choice a b with hc | hc
        · rw [h, hc]; exact List.mem_cons_self _ _
        · rw [h, hc]; exact List.mem_cons_of_mem _ (List.mem_cons_self _ _)
      · exact List.mem_cons_of_mem _ (List.mem_cons_of_mem _ h)
    · intro x hx
      rw [hfold]
      have hseed : max a b ≤ bs.foldl max (max a b) := hub _ (List.mem_cons_self _ _)
      rcases List.mem_cons.mp hx with h | h
      · exact le_trans (h ▸ le_max_left a b) hseed
      · rcases List.mem_cons.mp h with h2 | h2
        · exact le_trans (h2 ▸ le_max_right a b) hseed
        · exact hub x (List.mem_cons_of_mem _ h2)

/-- helper: a fold of `min` attains an element of the seeded list and is
below all of them. -/
theorem foldl_min_spec : ∀ (as : List ℚ) (a : ℚ),
    (as.foldl min a ∈ a :: as) ∧ (∀ x ∈ a :: as, as.foldl min a ≤ x) := by
  intro as
  induction as with
  | nil =>
    intro a
    refine ⟨List.mem_cons_self _ _, ?_⟩
    intro x hx
    rcases List.mem_cons.mp hx with h | h
    · exact le_of_eq h.symm
    · simp at h
  | cons b bs ih =>
    intro a
    have hfold : (b :: bs).foldl min a = bs.foldl min (min a b) := rfl
    obtain ⟨hmem, hlb⟩ := ih (min a b)
    constructor
    · rw [hfold]
      rcases List.mem_cons.mp hmem with h | h
      · rcases min_choice a b with hc | hc
        · rw [h, hc]; exact List.mem_cons_self _ _
        · rw [h, hc]; exact List.mem_cons_of_mem _ (List.mem_cons_self _ _)
      · exact List.mem_cons_of_mem _ (List.mem_cons_of_mem _ h)
    · intro x hx
      rw [hfold]
      have hseed : bs.foldl min (min a b) ≤ min a b := hlb _ (List.mem_cons_self _ _)
      rcases List.mem_cons.mp hx with h | h
      · exact le_trans hseed (h ▸ min_le_left a b)
      · rcases List.mem_cons.mp h with h2 | h2
        · exact le_trans hseed (h2 ▸ min_le_right a b)
        · exact hlb x (List.mem_cons_of_mem _ h2)

/-- helper: `listMax` of a non-empty list is an attained upper bound. -/
theorem listMax_spec (l : List ℚ) (hl : l ≠ []) :
    listMax l ∈ l ∧ ∀ x ∈ l, x ≤ listMax l := by
  match l, hl with
  | a :: as, _ =>
    rw [listMax]
    exact foldl_max_spec as a

/-- helper: `listMin` of a non-empty list is an attained lower bound. -/
theorem listMin_spec (l : List ℚ) (hl : l ≠ []) :
    listMin l ∈ l ∧ ∀ x ∈ l, listMin l ≤ x := by
  match l, hl with
  | a :: as, _ =>
    rw [listMin]
    exact foldl_min_spec as a

/-- helper: `firstOccur` keeps exactly the members of the list. -/
theorem mem_firstOccur : ∀ (l : List String) (x : String),
    x ∈ firstOccur l ↔ x ∈ l := by
  intro l
  induction l with
  | nil => intro x; simp [firstOccur]
  | cons a as ih =>
    intro x
    simp only [firstOccur, List.mem_cons, List.mem_filter]
    constructor
    · rintro (h | ⟨h1, _⟩)
      · exact Or.inl h
      · exact Or.inr ((ih x).mp h1)
    · rintro (h | h)
      · exact Or.inl h
      · by_cases hxa : x = a
        · exact Or.inl hxa
        · refine Or.inr ⟨(ih x).mpr h, ?_⟩
          simpa using hxa

/-- helper: `firstOccur` lists elements in order of their first
appearance: later entries have a later first index. -/
theorem firstOccur_pairwise : ∀ (l : List String),
    (firstOccur l).Pairwise (fun x y => l.indexOf x ≤ l.indexOf y) := by
  intro l
  induction l with
  | nil => simp [firstOccur]
  | cons a as ih =>
    rw [firstOccur]
    refine List.Pairwise.cons ?_ ?_
    · intro y _
      rw [List.indexOf_cons_self]
      exact Nat.zero_le _
    · have h1 : ((firstOccur as).filter (fun x => x ≠ a)).Pairwise
          (fun x y => as.indexOf x ≤ as.indexOf y) :=
        ih.sublist (List.filter_sublist _)
      refine h1.imp_of_mem ?_
      intro x y hx hy hxy
      have hxa : x ≠ a := by simpa using (List.mem_filter.mp hx).2
      have hya : y ≠ a := by simpa using (List.mem_filter.mp hy).2
      rw [List.indexOf_cons_ne as (Ne.symm hxa), List.indexOf_cons_ne as (Ne.symm hya)]
      exact Nat.succ_le_succ hxy

/-- helper: the counter scan returns the first entry of the candidate
list attaining the maximal count: everything before it counts strictly
less, and nothing counts more. -/
theorem pickMost_spec (l : List String) : ∀ (xs : List String) (best : String),
    (∃ pre post, best :: xs = pre ++ pickMost l best xs :: post ∧
      ∀ y ∈ pre, l.count y < l.count (pickMost l best xs)) ∧
    l.count best ≤ l.count (pickMost l best xs) ∧
    (∀ x ∈ xs, l.count x ≤ l.count (pickMost l best xs)) := by
  intro xs
  induction xs with
  | nil =>
    intro best
    exact ⟨⟨[], [], rfl, by simp⟩, le_refl _, by simp⟩
  | cons x xs ih =>
    intro best
    by_cases hcmp : l.count best < l.count x
    · have hred : pickMost l best (x :: xs) = pickMost l x xs := by
        simp only [pickMost]
        rw [if_pos hcmp]
      obtain ⟨⟨pre, post, hdec, hpre⟩, hbx, hxs⟩ := ih x
      refine ⟨⟨best :: pre, post, ?_, ?_⟩, ?_, ?_⟩
      · rw [hred, List.cons_append, ← hdec]
      · intro y hy
        rw [hred]
        rcases List.mem_cons.mp hy with h | h
        · rw [h]; exact lt_of_lt_of_le hcmp hbx
        · exact hpre y h
      · rw [hred]; exact le_of_lt (lt_of_lt_of_le hcmp hbx)
      · intro z hz
        rw [hred]
        rcases List.mem_cons.mp hz with h | h
        · rw [h]; exact hbx
        · exact hxs z h
    · have hred : pickMost l best (x :: xs) = pickMost l best xs := by
        simp only [pickMost]
        rw [if_neg hcmp]
      obtain ⟨⟨pre, post, hdec, hpre⟩, hbb, hxs⟩ := ih best
      refine ⟨?_, ?_, ?_⟩
      · cases pre with
        | nil =>
          have hr : pickMost l best xs = best := by
            have := congrArg (fun t => t.head?) hdec
            simp at this
            exact this.symm
          refine ⟨[], x :: xs, ?_, by simp⟩
          rw [hred, hr]
          rfl
        | cons q pre' =>
          have hq : q = best := by
            have := congrArg (fun t => t.head?) hdec
            simp at this
            exact this.symm
          have hxs_eq : xs = pre' ++ pickMost l best xs :: post := by
            have := congrArg List.tail hdec
            simpa using this
          refine ⟨best :: x :: pre', post, ?_, ?_⟩
          · rw [hred]
            show best :: x :: xs = best :: x :: (pre' ++ pickMost l best xs :: post)
            rw [← hxs_eq]
          · intro y hy
            rw [hred]
            have hb_lt : l.count best < l.count (pickMost l best xs) := by
              have : best ∈ q :: pre' := by rw [hq]; exact List.mem_cons_self _ _
              exact hpre best this
            rcases List.mem_cons.mp hy with h | h
            · rw [h]; exact hb_lt
            · rcases List.mem_cons.mp h with h2 | h2
              · rw [h2]
                exact lt_of_le_of_lt (le_of_not_lt hcmp) hb_lt
              · exact hpre y (List.mem_cons_of_mem q h2)
      · rw [hred]; exact hbb
      · intro z hz
        rw [hred]
        rcases List.mem_cons.mp hz with h | h
        · rw [h]; exact le_trans (le_of_not_lt hcmp) hbb
        · exact hxs z h

/-- helper: `mostCommon` (the embedding of `Counter.most_common(1)[0][0]`)
is a member of maximal multiplicity whose first occurrence is no later
than that of any other value of the same multiplicity. -/
theorem mostCommon_spec (l : List String) (hl : l ≠ []) :
    mostCommon l ∈ l ∧
    (∀ x ∈ l, l.count x ≤ l.count (mostCommon l)) ∧
    (∀ x ∈ l, l.count x = l.count (mostCommon l) →
      l.indexOf (mostCommon l) ≤ l.indexOf x) := by
  obtain ⟨b, bs, hF⟩ : ∃ b bs, firstOccur l = b :: bs := by
    cases hc : l with
    | nil => exact absurd hc hl
    | cons a as => exact ⟨a, (firstOccur as).filter (fun x => x ≠ a), rfl⟩
  have hmc : mostCommon l = pickMost l b bs := by
    rw [mostCommon, hF]
  obtain ⟨⟨pre, post, hdec, hpre⟩, hb, hbs⟩ := pickMost_spec l bs b
  have hmF : pickMost l b bs ∈ firstOccur l := by
    rw [hF, hdec]
    exact List.mem_append.mpr (Or.inr (List.mem_cons_self _ _))
  refine ⟨?_, ?_, ?_⟩
  · rw [hmc]
    exact (mem_firstOccur l _).mp hmF
  · intro x hx
    rw [hmc]
    have hxF : x ∈ firstOccur l := (mem_firstOccur l x).mpr hx
    rw [hF] at hxF
    rcases List.mem_cons.mp hxF with h | h
    · rw [h]; exact hb
    · exact hbs x h
  · intro x hx hcnt
    rw [hmc] at hcnt ⊢
    have hxF : x ∈ firstOccur l := (mem_firstOccur l x).mpr hx
    rw [hF, hdec] at hxF
    rcases List.mem_append.mp hxF with h | h
    · exact absurd hcnt (ne_of_lt (hpre x h))
    · rcases List.mem_cons.mp h with h2 | h2
      · rw [h2]
      · have hpw := firstOccur_pairwise l
        rw [hF, hdec] at hpw
        have hpw2 : (pickMost l b bs :: post).Pairwise
            (fun u v => l.indexOf u ≤ l.indexOf v) :=
          (List.pairwise_append.mp hpw).2.1
        exact (List.pairwise_cons.mp hpw2).1 x h2

/-- C2: on a non-empty, well-formed series the Daily Aggregator returns
exactly one bucket per distinct local calendar date; each bucket's
pressure list is exactly its date's pressures in series order, its
`avg_pressure` is their arithmetic mean, its max/min pressure and
temperature are attained extrema of the date's samples, and its
`common_weather` is a most-frequent description whose first appearance
precedes that of every other equally-frequent description. -/
theorem daily_aggregator_correct (items : List Sample)
    (hne : items ≠ [])
    (hwf : ∀ s ∈ items, wfSample s) :
    ∃ buckets, process_forecast_data items = some buckets ∧
      (buckets.map Prod.fst).Nodup ∧
      (∀ d, d ∈ buckets.map Prod.fst ↔ ∃ s ∈ items, sampleKey s = d) ∧
      (∀ d b, (d, b) ∈ buckets →
        b.pressures = dayPressures items d ∧
        b.avg_pressure = (dayPressures items d).sum / (dayPressures items d).length ∧
        b.max_pressure ∈ dayPressures items d ∧
        (∀ x ∈ dayPressures items d, x ≤ b.max_pressure) ∧
        b.min_pressure ∈ dayPressures items d ∧
        (∀ x ∈ dayPressures items d, b.min_pressure ≤ x) ∧
        b.avg_temp = (dayTemps items d).sum / (dayTemps items d).length ∧
        b.max_temp ∈ dayTemps items d ∧
        (∀ x ∈ dayTemps items d, x ≤ b.max_temp) ∧
        b.min_temp ∈ dayTemps items d ∧
        (∀ x ∈ dayTemps items d, b.min_temp ≤ x) ∧
        b.common_weather ∈ dayWeathers items d ∧
        (∀ w ∈ dayWeathers items d,
          (dayWeathers items d).count w ≤ (dayWeathers items d).count b.common_weather) ∧
        (∀ w ∈ dayWeathers items d,
          (dayWeathers items d).count w = (dayWeathers items d).count b.common_weather →
          (dayWeathers items d).indexOf b.common_weather ≤ (dayWeathers items d).indexOf w)) := by
  obtain ⟨res, hres, ih1, ih2, ih3, ih4⟩ := groupItems_spec items [] hwf
  have hkeys : (res.map (fun kb => (kb.1, finalizeBucket kb.2))).map Prod.fst =
      res.map Prod.fst := by
    rw [List.map_map]
    rfl
  have hnd : (res.map Prod.fst).Nodup := ih4 (by simp)
  refine ⟨res.map (fun kb => (kb.1, finalizeBucket kb.2)), ?_, ?_, ?_, ?_⟩
  · unfold process_forecast_data
    rw [hres]
    rfl
  · rw [hkeys]
    exact hnd
  · intro d
    rw [hkeys, ih3 d]
    simp [List.mem_map]
  · intro d b hmem
    obtain ⟨⟨k, rb⟩, hkr, heq⟩ := List.mem_map.mp hmem
    have hk : k = d := congrArg Prod.fst heq
    have hb : finalizeBucket rb = b := congrArg Prod.snd heq
    subst hk
    have hlook : lookupB res k = some rb := lookupB_of_mem res hnd k rb hkr
    have hdm : k ∈ items.map sampleKey := by
      have hkmem : k ∈ res.map Prod.fst := List.mem_map_of_mem Prod.fst hkr
      rcases (ih3 k).mp hkmem with h | h
      · simp at h
      · exact h
    have hlook2 : lookupB res k =
        some ⟨dayPressures items k, dayTemps items k, dayWeathers items k, dayNameStr k⟩ := by
      have h0 := ih2 k rfl
      rw [if_pos hdm] at h0
      exact h0
    have hrb : rb = ⟨dayPressures items k, dayTemps items k, dayWeathers items k, dayNameStr k⟩ :=
      Option.some.inj (hlook.symm.trans hlook2)
    obtain ⟨s, hs, hsk⟩ : ∃ s ∈ items, sampleKey s = k := by
      obtain ⟨s, hs, hsk⟩ := List.mem_map.mp hdm
      exact ⟨s, hs, hsk⟩
    obtain ⟨hps, hts, hwe⟩ := hwf s hs
    obtain ⟨p, hp⟩ := Option.isSome_iff_exists.mp hps
    obtain ⟨t0, ht0⟩ := Option.isSome_iff_exists.mp hts
    obtain ⟨w0, hw0⟩ : ∃ w0, s.weather.head? = some w0 := by
      cases hcw : s.weather with
      | nil => exact absurd hcw hwe
      | cons a as => exact ⟨a, rfl⟩
    have hsfil : s ∈ items.filter (fun x => sampleKey x = k) :=
      List.mem_filter.mpr ⟨hs, by simpa using hsk⟩
    have hpmem : p ∈ dayPressures items k :=
      List.mem_filterMap.mpr ⟨s, hsfil, hp⟩
    have htmem : t0 ∈ dayTemps items k :=
      List.mem_filterMap.mpr ⟨s, hsfil, ht0⟩
    have hwmem : w0 ∈ dayWeathers items k :=
      List.mem_filterMap.mpr ⟨s, hsfil, hw0⟩
    have hPne : dayPressures items k ≠ [] := by
      intro h
      rw [h] at hpmem
      simp at hpmem
    have hTne : dayTemps items k ≠ [] := by
      intro h
      rw [h] at htmem
      simp at htmem
    have hWne : dayWeathers items k ≠ [] := by
      intro h
      rw [h] at hwmem
      simp at hwmem
    have hbconc : b = finalizeBucket
        ⟨dayPressures items k, dayTemps items k, dayWeathers items k, dayNameStr k⟩ := by
      rw [← hb, hrb]
    subst hbconc
    unfold finalizeBucket
    dsimp only
    obtain ⟨hmax1, hmax2⟩ := listMax_spec (dayPressures items k) hPne
    obtain ⟨hmin1, hmin2⟩ := listMin_spec (dayPressures items k) hPne
    obtain ⟨hmaxT1, hmaxT2⟩ := listMax_spec (dayTemps items k) hTne
    obtain ⟨hminT1, hminT2⟩ := listMin_spec (dayTemps items k) hTne
    obtain ⟨hmc1, hmc2, hmc3⟩ := mostCommon_spec (dayWeathers items k) hWne
    exact ⟨rfl, rfl, hmax1, hmax2, hmin1, hmin2, rfl, hmaxT1, hmaxT2, hminT1, hminT2,
      hmc1, hmc2, hmc3⟩

/-- C2 witness: the theorem applied at the concrete three-sample series. -/
theorem daily_aggregator_correct_witness :
    ∃ buckets, process_forecast_data witnessSeries = some buckets ∧
      (buckets.map Prod.fst).Nodup ∧
      (∀ d, d ∈ buckets.map Prod.fst ↔ ∃ s ∈ witnessSeries, sampleKey s = d) ∧
      (∀ d b, (d, b) ∈ buckets →
        b.pressures = dayPressures witnessSeries d ∧
        b.avg_pressure =
          (dayPressures witnessSeries d).sum / (dayPressures witnessSeries d).length ∧
        b.max_pressure ∈ dayPressures witnessSeries d ∧
        (∀ x ∈ dayPressures witnessSeries d, x ≤ b.max_pressure) ∧
        b.min_pressure ∈ dayPressures witnessSeries d ∧
        (∀ x ∈ dayPressures witnessSeries d, b.min_pressure ≤ x) ∧
        b.avg_temp = (dayTemps witnessSeries d).sum / (dayTemps witnessSeries d).length ∧
        b.max_temp ∈ dayTemps witnessSeries d ∧
        (∀ x ∈ dayTemps witnessSeries d, x ≤ b.max_temp) ∧
        b.min_temp ∈ dayTemps witnessSeries d ∧
        (∀ x ∈ dayTemps witnessSeries d, b.min_temp ≤ x) ∧
        b.common_weather ∈ dayWeathers witnessSeries d ∧
        (∀ w ∈ dayWeathers witnessSeries d,
          (dayWeathers witnessSeries d).count w ≤
            (dayWeathers witnessSeries d).count b.common_weather) ∧
        (∀ w ∈ dayWeathers witnessSeries d,
          (dayWeathers witnessSeries d).count w =
            (dayWeathers witnessSeries d).count b.common_weather →
          (dayWeathers witnessSeries d).indexOf b.common_weather ≤
            (dayWeathers witnessSeries d).indexOf w)) :=
  daily_aggregator_correct witnessSeries (by decide)
    (by intro s hs; fin_cases hs <;> exact ⟨rfl, rfl, by decide⟩)
